import Mathlib

/-!
Shallow embedding of the catalog-synchronization core of `src/bot.py`.

Text is modelled as `List Char` (Python `str` is a sequence of characters).
Python dictionaries built by the code are modelled as update-functions with
`Option` lookup (dictionary `get` semantics); JSON numbers that the code pipes
through `int(float(...))` are modelled by their already-converted `Int` value.
Remote calls are modelled by an `Env` that fixes the outcome of every request
the code can issue: the listing call, the i-th price batch, and the
per-identifier description call.
-/

/-- Characters matched by `\s` in Python's `re` module (ASCII range) and
stripped by `str.strip()`: space, tab, newline, carriage return, vertical tab,
form feed. -/
def isPySpace (c : Char) : Bool :=
  c == ' ' || c == '\t' || c == '\n' || c == '\r' || c == Char.ofNat 11 || c == Char.ofNat 12

/-- Match of the regex `<br\s*/?>` at the head of the text
(`re.sub(r'<br\s*/?>', '\n', ...)` in `_clean_description`): returns the
remainder after the match when the head matches. -/
def matchBr : List Char → Option (List Char)
  | '<' :: 'b' :: 'r' :: rest =>
    match rest.dropWhile isPySpace with
    | '/' :: '>' :: r => some r
    | '>' :: r => some r
    | _ => none
  | _ => none

/-- First substitution of `_clean_description`:
`re.sub(r'<br\s*/?>', '\n', description)` — each `<br>`-style tag becomes a
newline; non-overlapping matches are replaced left to right. -/
def brToNewline (s : List Char) : List Char :=
  match hm : matchBr s with
  | some rem => '\n' :: brToNewline rem
  | none =>
    match s with
    | [] => []
    | c :: rest => c :: brToNewline rest
termination_by s.length
decreasing_by
  · have hd : ∀ l : List Char, (l.dropWhile isPySpace).length ≤ l.length := by
      intro l
      induction l with
      | nil => simp [List.dropWhile]
      | cons a t ih =>
        by_cases h : isPySpace a = true
        · simp [List.dropWhile, h]
          omega
        · simp [List.dropWhile, h]
    unfold matchBr at hm
    split at hm
    · rename_i rest
      have hdr := hd rest
      split at hm
      · rename_i r2 heq
        cases hm
        have : (rest.dropWhile isPySpace).length = rem.length + 2 := by rw [heq]; simp
        simp
        omega
      · rename_i r2 heq
        cases hm
        have : (rest.dropWhile isPySpace).length = rem.length + 1 := by rw [heq]; simp
        simp
        omega
      · cases hm
    · cases hm
  · simp

/-- Second substitution of `_clean_description`:
`re.sub(r'<[^>]+>', '', clean_text)` — every `<`…`>` group with at least one
inner character is removed. -/
def stripTags (s : List Char) : List Char :=
  match s with
  | [] => []
  | c :: rest =>
    if c = '<' then
      let seg := rest.takeWhile (fun x => x != '>')
      if seg.isEmpty then c :: stripTags rest
      else if seg.length < rest.length then stripTags (rest.drop (seg.length + 1))
      else c :: stripTags rest
    else c :: stripTags rest
termination_by s.length
decreasing_by
  all_goals simp
  all_goals omega

/-- Third substitution of `_clean_description`:
`re.sub(r'\n\s*\n', '\n', clean_text)` — a newline followed by whitespace
ending in another newline collapses to a single newline; the greedy `\s*`
makes the match run to the last newline inside the whitespace run. -/
def collapseNL (s : List Char) : List Char :=
  match s with
  | [] => []
  | c :: rest =>
    if c = '\n' then
      let ws := rest.takeWhile isPySpace
      if ws.contains '\n' then
        let afterLast := (ws.reverse.takeWhile (fun x => x != '\n')).length
        '\n' :: collapseNL (rest.drop (ws.length - afterLast))
      else c :: collapseNL rest
    else c :: collapseNL rest
termination_by s.length
decreasing_by
  all_goals simp
  all_goals omega

/-- Python `str.strip()`: remove leading and trailing whitespace. -/
def stripEnds (s : List Char) : List Char :=
  ((s.dropWhile isPySpace).reverse.dropWhile isPySpace).reverse

/-- `OzonSellerAPI._clean_description` (src/bot.py lines 226-238): empty input
maps to the empty string, otherwise the three regex substitutions run in order
and the result is stripped. -/
def clean_description (description : List Char) : List Char :=
  if description.isEmpty then []
  else stripEnds (collapseNL (stripTags (brToNewline description)))

/-- The `price` sub-dictionary of one item of a v5 price response; the numeric
fields carry the value `int(float(x))` the code computes, `none` models a
missing or JSON-`null` entry. -/
structure PriceInfo where
  price : Option Int
  old_price : Option Int
deriving DecidableEq

/-- One element of the `items` array of a v5 `product/info/prices` response,
as stored in `prices_data`. -/
structure PriceResponseItem where
  product_id : Option Nat
  price : Option PriceInfo
deriving DecidableEq

/-- Fallback branch of `_extract_price_from_v5`: the `old_price` lookup with
its Python truthiness test (`if old_price:`) followed by the positivity test. -/
def extract_old (info : PriceInfo) : Int :=
  match info.old_price with
  | some m => if m ≠ 0 then (if 0 < m then m else 0) else 0
  | none => 0

/-- `OzonSellerAPI._extract_price_from_v5` (src/bot.py lines 240-271).
`none` input models both a missing price record (`prices_data.get(pid, {})`
returning `{}`) and a non-dict record; `price = none` models a missing or
non-dict `price` sub-dictionary. The `main_price` truthiness test and the
`price_int > 0` test mirror the source. -/
def extract_price_from_v5 (price_item : Option PriceResponseItem) : Int :=
  match price_item with
  | none => 0
  | some item =>
    match item.price with
    | none => 0
    | some info =>
      match info.price with
      | some m => if m ≠ 0 then (if 0 < m then m else extract_old info) else extract_old info
      | none => extract_old info

/-- Modelled from the spec's words for comparison (claim C2), fallback part:
"if absent or non-positive, fall back to fallback_price; if both
absent/non-positive, price resolves to 0". -/
def resolve_fallback_spec (fallback : Option Int) : Int :=
  match fallback with
  | some m => if 0 < m then m else 0
  | none => 0

/-- Modelled from the spec's words for comparison (claim C2): "take the
PriceRecord's primary_price; if absent or non-positive, fall back to
fallback_price; if both absent/non-positive, price resolves to 0". -/
def resolve_price_spec (primary fallback : Option Int) : Int :=
  match primary with
  | some m => if 0 < m then m else resolve_fallback_spec fallback
  | none => resolve_fallback_spec fallback

/-- One item of the v3 `product/list` response. `product_id = none` models an
item whose `product_id` key is absent; `offer_id = none` models a missing
`offer_id`. -/
structure ListingItem where
  product_id : Option Nat
  offer_id : Option (List Char)
deriving DecidableEq

/-- The `result` object of a v1 `product/info/description` response
(`none` field models a missing key, read with `.get(_, '')`). -/
structure DescResult where
  name : Option (List Char)
  description : Option (List Char)
deriving DecidableEq

/-- The record `_get_products_descriptions_v1` stores in `descriptions_data`:
both keys are always present. -/
structure DescRecord where
  name : List Char
  description : List Char
deriving DecidableEq

/-- A transport-level `requests` exception: `requests.exceptions.Timeout` or
`requests.exceptions.ConnectionError`. -/
inductive TransportError
  | timeout
  | connError
deriving DecidableEq

/-- How the listing call can fail: a transport exception, a non-200 status,
or some other exception (e.g. malformed JSON); all collapse to `return None`
in the source. -/
inductive ListingFailure
  | timeout
  | connError
  | badStatus (code : Nat)
  | otherExc
deriving DecidableEq

/-- Outcome of the v3 `product/list` call. -/
inductive ListingOutcome
  | fail (f : ListingFailure)
  | ok (items : List ListingItem)
deriving DecidableEq

/-- Outcome of one v5 price batch request. -/
inductive BatchOutcome
  | ok (items : List PriceResponseItem)
  | badStatus (code : Nat)
  | exc (e : TransportError)
deriving DecidableEq

/-- Outcome of one v1 description request; `ok none` models a 200 response
whose `result` object is missing or falsy. -/
inductive DescOutcome
  | ok (res : Option DescResult)
  | badStatus (code : Nat)
  | exc (e : TransportError)
deriving DecidableEq

/-- The remote world a refresh runs against: whether both Ozon credentials are
set, the listing outcome, the outcome of the i-th price batch request, and the
outcome of the description request for a given product id. -/
structure Env where
  creds : Bool
  listing : ListingOutcome
  priceBatch : Nat → BatchOutcome
  descOutcome : Nat → DescOutcome

/-- `prices_data`: a Python dict keyed by `price_item.get('product_id')`
(which may be `None`). -/
abbrev PricesMap := Option Nat → Option PriceResponseItem

/-- Dictionary assignment `prices_data[product_id] = price_item`. -/
def updatePrices (m : PricesMap) (k : Option Nat) (v : PriceResponseItem) : PricesMap :=
  fun k2 => if k2 = k then some v else m k2

/-- The inner loop `for price_item in price_items: prices_data[...] = price_item`
of a successful batch. -/
def insertItems (acc : PricesMap) (items : List PriceResponseItem) : PricesMap :=
  items.foldl (fun m it => updatePrices m it.product_id it) acc

/-- The batch loop of `_get_products_prices_v5`: each batch request either
raises (a transport exception aborts the whole call: the Python `try` wraps
the loop and the handler returns `{}`), is skipped on a non-200 status, or has
its items inserted. `none` signals the raised-exception case to the caller. -/
def runBatches (env : Env) : Nat → List (List Nat) → PricesMap → Option PricesMap
  | _, [], acc => some acc
  | i, _b :: rest, acc =>
    match env.priceBatch i with
    | BatchOutcome.exc _ => none
    | BatchOutcome.badStatus _ => runBatches env (i + 1) rest acc
    | BatchOutcome.ok items => runBatches env (i + 1) rest (insertItems acc items)

/-- Fuel-driven chunking `for i in range(0, len(product_ids), 50):
batch_ids = product_ids[i:i+50]`; the fuel is an upper bound on the number of
iterations, instantiated with the list length by `chunk50`. -/
def chunk50Aux : Nat → List Nat → List (List Nat)
  | _, [] => []
  | 0, _ => []
  | fuel + 1, l => l.take 50 :: chunk50Aux fuel (l.drop 50)

/-- The consecutive 50-element batches of `product_ids` issued by
`_get_products_prices_v5`. -/
def chunk50 (l : List Nat) : List (List Nat) := chunk50Aux l.length l

/-- `OzonSellerAPI._get_products_prices_v5` (src/bot.py lines 144-187):
empty id list short-circuits to an empty dict; otherwise the batches run and
any raised exception yields `{}`, discarding all accumulated entries. -/
def get_products_prices_v5 (env : Env) (product_ids : List Nat) : PricesMap :=
  if product_ids = [] then fun _ => none
  else
    match runBatches env 0 (chunk50 product_ids) (fun _ => none) with
    | some m => m
    | none => fun _ => none

/-- `descriptions_data`: a Python dict keyed by product id. -/
abbrev DescsMap := Nat → Option DescRecord

/-- Dictionary assignment `descriptions_data[product_id] = {...}`. -/
def updateDescs (m : DescsMap) (k : Nat) (v : DescRecord) : DescsMap :=
  fun k2 => if k2 = k then some v else m k2

/-- The per-id loop of `_get_products_descriptions_v1`: a raised exception
aborts the whole call (outer `try`, handler returns `{}`), a non-200 status or
falsy `result` skips the id, otherwise the name/description pair is stored
with `''` defaults. -/
def runDescs (env : Env) : List Nat → DescsMap → Option DescsMap
  | [], acc => some acc
  | pid :: rest, acc =>
    match env.descOutcome pid with
    | DescOutcome.exc _ => none
    | DescOutcome.badStatus _ => runDescs env rest acc
    | DescOutcome.ok none => runDescs env rest acc
    | DescOutcome.ok (some r) =>
      runDescs env rest (updateDescs acc pid ⟨r.name.getD [], r.description.getD []⟩)

/-- `OzonSellerAPI._get_products_descriptions_v1` (src/bot.py lines 189-224). -/
def get_products_descriptions_v1 (env : Env) (product_ids : List Nat) : DescsMap :=
  if product_ids = [] then fun _ => none
  else
    match runDescs env product_ids (fun _ => none) with
    | some m => m
    | none => fun _ => none

/-- The merged catalog record the reconciliation loop appends to `products`. -/
structure Product where
  product_id : Nat
  offer_id : Option (List Char)
  name : List Char
  price : Int
  description : List Char
  quantity : Nat
deriving DecidableEq

/-- The synthesized placeholder name `f"Товар {product_id}"`. -/
def placeholder_name (pid : Nat) : List Char :=
  "Товар ".toList ++ (Nat.repr pid).toList

/-- Name resolution of the reconciliation loop (src/bot.py line 96):
`product_info.get('name', offer_id or f"Товар {product_id}")`; the stored
description record always carries a `name` key, so the fallback only fires
when the record is absent and a falsy `offer_id` (missing or empty) falls
through to the placeholder. -/
def resolve_name (descs : DescsMap) (item : ListingItem) (pid : Nat) : List Char :=
  match descs pid with
  | some r => r.name
  | none =>
    match item.offer_id with
    | some o => if o = [] then placeholder_name pid else o
    | none => placeholder_name pid

/-- The raw description text `product_info.get('description', '')`
(src/bot.py line 97). -/
def raw_description (descs : DescsMap) (pid : Nat) : List Char :=
  match descs pid with
  | some r => r.description
  | none => []

/-- Description resolution of the reconciliation loop (src/bot.py lines
99-106): an empty raw description falls back to the resolved name; otherwise
the text is sanitized and, when longer than 200 characters, truncated to 197
characters with `"..."` appended. -/
def resolve_description (descs : DescsMap) (item : ListingItem) (pid : Nat) : List Char :=
  if raw_description descs pid = [] then resolve_name descs item pid
  else
    let c := clean_description (raw_description descs pid)
    if 200 < c.length then c.take 197 ++ ('.' :: '.' :: '.' :: []) else c

/-- The body of the reconciliation loop of `get_products_with_prices`
(src/bot.py lines 86-129) for one listing item: skip items with a falsy
`product_id` (absent key or id 0), resolve name, description and price, and
drop the item when the resolved price is 0. -/
def process_item (prices : PricesMap) (descs : DescsMap) (item : ListingItem) :
    Option Product :=
  match item.product_id with
  | none => none
  | some pid =>
    if pid = 0 then none
    else
      let price := extract_price_from_v5 (prices (some pid))
      if price = 0 then none
      else some ⟨pid, item.offer_id, resolve_name descs item pid, price,
                 resolve_description descs item pid, 10⟩

/-- The `products = []; for item in items: ... products.append({...})` loop. -/
def build_products (prices : PricesMap) (descs : DescsMap) (items : List ListingItem) :
    List Product :=
  items.foldl
    (fun acc item =>
      match process_item prices descs item with
      | some p => acc ++ [p]
      | none => acc)
    []

/-- The `product_ids` comprehension
`[item['product_id'] for item in items if 'product_id' in item]`. -/
def listing_ids (items : List ListingItem) : List Nat :=
  items.filterMap (fun it => it.product_id)

/-- `OzonSellerAPI.get_products_with_prices` (src/bot.py lines 31-142):
`none` models the Python `None` returns (missing credentials, failed listing
call, empty listing, no usable `product_id`). The `limit` argument only
shapes the outbound listing request and is therefore not modelled. -/
def get_products_with_prices (env : Env) : Option (List Product) :=
  if env.creds = false then none
  else
    match env.listing with
    | ListingOutcome.fail _ => none
    | ListingOutcome.ok items =>
      if items = [] then none
      else
        if listing_ids items = [] then none
        else
          some (build_products (get_products_prices_v5 env (listing_ids items))
            (get_products_descriptions_v1 env (listing_ids items)) items)

/-- The `products = {}; product_counter = 1; ...` numbering loop of
`load_real_products`: assigns consecutive integer keys starting at 1. -/
def number_from : Nat → List Product → List (Nat × Product)
  | _, [] => []
  | n, p :: rest => (n, p) :: number_from (n + 1) rest

/-- `load_real_products` (src/bot.py lines 284-334): the cache becomes `{}`
when credentials are missing or `get_products_with_prices` returns `None` or
an empty list, and otherwise the numbered products. The per-item rebuild with
`item.get(..., default)` is the identity because every key is present. -/
def load_real_products (env : Env) : List (Nat × Product) :=
  if env.creds = false then []
  else
    match get_products_with_prices env with
    | none => []
    | some products_data =>
      if products_data = [] then []
      else number_from 1 products_data

/-- One refresh cycle as driven by `refresh_products_callback`
(src/bot.py lines 382-388): count the cache before, reload it, count after.
The prior cache is overwritten unconditionally. -/
def refresh (prior : List (Nat × Product)) (env : Env) :
    List (Nat × Product) × Nat × Nat :=
  let cache := load_real_products env
  (cache, prior.length, cache.length)

/-- The `next` arm of `handle_product_action` (src/bot.py lines 472-476):
`next_index = product_index + 1`, wrapping to 1 past `len(products_cache)`.
Positions are Python ints, modelled as `Int`. -/
def next_index (cache : List (Nat × Product)) (p : Int) : Int :=
  let q := p + 1
  if q > (cache.length : Int) then 1 else q

/-- The `prev` arm of `handle_product_action` (src/bot.py lines 477-481):
`prev_index = product_index - 1`, wrapping to `len(products_cache)` below 1. -/
def prev_index (cache : List (Nat × Product)) (p : Int) : Int :=
  let q := p - 1
  if q < 1 then (cache.length : Int) else q

/-! Concrete environments used to instantiate the theorems below. -/

/-- A listing item with product id 5 and offer code "a". -/
def itemA : ListingItem := ⟨some 5, some ['a']⟩

/-- A listing item with product id 6 and offer code "b". -/
def itemB : ListingItem := ⟨some 6, some ['b']⟩

/-- A listing item whose `product_id` key is absent. -/
def itemNoId : ListingItem := ⟨none, some ['q']⟩

/-- A listing item with the falsy product id 0. -/
def itemZero : ListingItem := ⟨some 0, some ['x']⟩

/-- A price record for id 5 with primary price 42. -/
def priceRecA : PriceResponseItem := ⟨some 5, some ⟨some 42, none⟩⟩

/-- A price record for id 6 with no primary price and old price 7. -/
def priceRecB : PriceResponseItem := ⟨some 6, some ⟨none, some 7⟩⟩

/-- A price record for id 0 with primary price 100. -/
def priceRecZero : PriceResponseItem := ⟨some 0, some ⟨some 100, none⟩⟩

/-- A fully healthy environment: two listed items, one price batch carrying
both price records, description lookups failing with status 500. -/
def envOK : Env :=
  { creds := true
    listing := ListingOutcome.ok [itemA, itemB]
    priceBatch := fun _ => BatchOutcome.ok [priceRecA, priceRecB]
    descOutcome := fun _ => DescOutcome.badStatus 500 }

/-- The product reconciled from `itemA` under `envOK`. -/
def prodA : Product := ⟨5, some ['a'], ['a'], 42, ['a'], 10⟩

/-- The product reconciled from `itemB` under `envOK`. -/
def prodB : Product := ⟨6, some ['b'], ['b'], 7, ['b'], 10⟩

/-- The cache produced by a refresh under `envOK`. -/
def cacheAB : List (Nat × Product) := [(1, prodA), (2, prodB)]

/-- An environment whose listing call times out. -/
def envTimeout : Env :=
  { creds := true
    listing := ListingOutcome.fail ListingFailure.timeout
    priceBatch := fun _ => BatchOutcome.badStatus 500
    descOutcome := fun _ => DescOutcome.badStatus 500 }

/-- An environment whose only listed item has no `product_id` key. -/
def envNoId : Env :=
  { creds := true
    listing := ListingOutcome.ok [itemNoId]
    priceBatch := fun _ => BatchOutcome.badStatus 500
    descOutcome := fun _ => DescOutcome.badStatus 500 }

/-- 51 ids, which `_get_products_prices_v5` splits into two batches. -/
def idsC3 : List Nat := List.range' 1 51

/-- 120 ids, which `_get_products_prices_v5` splits into three batches. -/
def ids120 : List Nat := List.range' 1 120

/-- An environment where price batch 0 succeeds with the record for id 5 and
every later price batch raises a timeout. -/
def envC3ce : Env :=
  { creds := true
    listing := ListingOutcome.ok [itemA]
    priceBatch := fun i => if i = 0 then BatchOutcome.ok [priceRecA]
      else BatchOutcome.exc TransportError.timeout
    descOutcome := fun _ => DescOutcome.badStatus 500 }

/-- An environment where price batch 0 succeeds with the record for id 5 and
every later price batch raises a connection error. -/
def envC9ce : Env :=
  { creds := true
    listing := ListingOutcome.ok [itemA]
    priceBatch := fun i => if i = 0 then BatchOutcome.ok [priceRecA]
      else BatchOutcome.exc TransportError.connError
    descOutcome := fun _ => DescOutcome.badStatus 500 }

/-- An environment whose only listed item has the falsy id 0 although the
price lookup returns a positive price for it. -/
def envC8ce : Env :=
  { creds := true
    listing := ListingOutcome.ok [itemZero]
    priceBatch := fun _ => BatchOutcome.ok [priceRecZero]
    descOutcome := fun _ => DescOutcome.badStatus 500 }

/-- A 201-character display name. -/
def longName201 : List Char := List.replicate 201 'a'

/-- An environment whose description lookup returns a 201-character name and
no description text for every id. -/
def envC4ce : Env :=
  { creds := true
    listing := ListingOutcome.ok [itemA]
    priceBatch := fun _ => BatchOutcome.ok [priceRecA]
    descOutcome := fun _ => DescOutcome.ok (some ⟨some longName201, none⟩) }

/-- The product reconciled from `itemA` under `envC4ce`: its description is
the 201-character name fallback. -/
def prodC4ce : Product := ⟨5, some ['a'], longName201, 42, longName201, 10⟩

/-! Helper lemmas about the embedded operations. -/

/-- The extracted price is never negative: every branch of
`_extract_price_from_v5` returns a value it has checked to be positive, or 0. -/
theorem extract_price_nonneg (x : Option PriceResponseItem) :
    0 ≤ extract_price_from_v5 x := by
  rcases x with _ | ⟨pid, pi⟩
  · simp [extract_price_from_v5]
  · rcases pi with _ | ⟨mp, op⟩
    · simp [extract_price_from_v5]
    · rcases mp with _ | m <;> rcases op with _ | o <;>
        simp [extract_price_from_v5, extract_old] <;> split_ifs <;> omega

/-- Inversion for the reconciliation loop body: exactly the items with a
truthy `product_id` and a nonzero extracted price yield a product, and the
produced record's fields are determined. -/
theorem process_item_some_iff {prices : PricesMap} {descs : DescsMap}
    {item : ListingItem} {prod : Product} :
    process_item prices descs item = some prod ↔
      ∃ pid, item.product_id = some pid ∧ pid ≠ 0 ∧
        extract_price_from_v5 (prices (some pid)) ≠ 0 ∧
        prod = ⟨pid, item.offer_id, resolve_name descs item pid,
                extract_price_from_v5 (prices (some pid)),
                resolve_description descs item pid, 10⟩ := by
  unfold process_item
  cases hid : item.product_id with
  | none => simp
  | some pid =>
    by_cases h0 : pid = 0
    · simp [h0]
    · by_cases hp : extract_price_from_v5 (prices (some pid)) = 0
      · simp [h0, hp]
      · simp [h0, hp]
        exact eq_comm

/-- The append-style `products` loop equals a `filterMap` over the listing. -/
theorem build_products_eq (prices : PricesMap) (descs : DescsMap)
    (items : List ListingItem) :
    build_products prices descs items = items.filterMap (process_item prices descs) := by
  unfold build_products
  have key : ∀ (its : List ListingItem) (acc : List Product),
      its.foldl
        (fun acc item =>
          match process_item prices descs item with
          | some p => acc ++ [p]
          | none => acc) acc
      = acc ++ its.filterMap (process_item prices descs) := by
    intro its
    induction its with
    | nil => intro acc; simp
    | cons a t ih =>
      intro acc
      cases hp : process_item prices descs a <;>
        simp [List.foldl_cons, hp, ih, List.filterMap_cons]
  simpa using key items []

/-- Membership in the reconciled product list. -/
theorem mem_build_products {prices : PricesMap} {descs : DescsMap}
    {items : List ListingItem} {prod : Product} :
    prod ∈ build_products prices descs items ↔
      ∃ item, item ∈ items ∧ process_item prices descs item = some prod := by
  rw [build_products_eq]
  exact List.mem_filterMap

/-- The numbering loop preserves length. -/
theorem number_from_length (n : Nat) (l : List Product) :
    (number_from n l).length = l.length := by
  induction l generalizing n with
  | nil => rfl
  | cons p rest ih => simp [number_from, ih]

/-- The keys assigned by the numbering loop are the consecutive integers
starting at its counter. -/
theorem number_from_map_fst (n : Nat) (l : List Product) :
    (number_from n l).map Prod.fst = List.range' n l.length := by
  induction l generalizing n with
  | nil => rfl
  | cons p rest ih => simp [number_from, ih, List.range']

/-- The values stored by the numbering loop are the input products in order. -/
theorem number_from_map_snd (n : Nat) (l : List Product) :
    (number_from n l).map Prod.snd = l := by
  induction l generalizing n with
  | nil => rfl
  | cons p rest ih => simp [number_from, ih]

/-- A value stored by the numbering loop is one of the input products. -/
theorem mem_number_from {n : Nat} {l : List Product} {k : Nat} {p : Product}
    (h : (k, p) ∈ number_from n l) : p ∈ l := by
  induction l generalizing n with
  | nil => simp [number_from] at h
  | cons a rest ih =>
    rcases List.mem_cons.mp h with heq | hmem
    · have hpa : p = a := (Prod.ext_iff.mp heq).2
      rw [hpa]
      exact List.mem_cons_self a rest
    · exact List.mem_cons_of_mem a (ih hmem)

/-- When the pipeline produced a product list, the cache is that list
numbered from 1 (or empty when the list is empty). -/
theorem load_eq_of_get {env : Env} {ps : List Product}
    (h : get_products_with_prices env = some ps) :
    load_real_products env = if ps = [] then [] else number_from 1 ps := by
  unfold load_real_products
  by_cases hc : env.creds = false
  · unfold get_products_with_prices at h
    rw [if_pos hc] at h
    cases h
  · rw [if_neg hc, h]

/-- When the pipeline failed, the cache is cleared. -/
theorem load_eq_nil_of_get_none {env : Env}
    (h : get_products_with_prices env = none) : load_real_products env = [] := by
  unfold load_real_products
  by_cases hc : env.creds = false
  · rw [if_pos hc]
  · rw [if_neg hc, h]

/-- Unfolding of the pipeline on the success path. -/
theorem get_eq_build {env : Env} {items : List ListingItem}
    (hc : env.creds = true) (hl : env.listing = ListingOutcome.ok items)
    (hne : items ≠ []) (hids : listing_ids items ≠ []) :
    get_products_with_prices env =
      some (build_products (get_products_prices_v5 env (listing_ids items))
        (get_products_descriptions_v1 env (listing_ids items)) items) := by
  unfold get_products_with_prices
  simp [hc, hl, hne, hids]

/-- Central inversion: every cache entry comes from processing some item of a
successfully fetched listing. -/
theorem mem_load_real_products {env : Env} {k : Nat} {prod : Product}
    (h : (k, prod) ∈ load_real_products env) :
    ∃ items, env.listing = ListingOutcome.ok items ∧
      ∃ item, item ∈ items ∧
        process_item (get_products_prices_v5 env (listing_ids items))
          (get_products_descriptions_v1 env (listing_ids items)) item = some prod := by
  unfold load_real_products at h
  split at h
  · simp at h
  · split at h
    · simp at h
    · rename_i ps heq
      split at h
      · simp at h
      · have hps : prod ∈ ps := mem_number_from h
        unfold get_products_with_prices at heq
        split at heq
        · cases heq
        · split at heq
          · cases heq
          · rename_i items hlst
            split at heq
            · cases heq
            · split at heq
              · cases heq
              · cases heq
                refine ⟨items, hlst, ?_⟩
                exact mem_build_products.mp hps

/-- Dictionary assignment cannot erase an existing `prices_data` entry. -/
theorem updatePrices_preserve {m : PricesMap} {k : Option Nat}
    {v : PriceResponseItem} {k2 : Option Nat} (h : m k2 ≠ none) :
    updatePrices m k v k2 ≠ none := by
  unfold updatePrices
  split_ifs with he
  · simp
  · exact h

/-- Inserting a batch's items cannot erase an existing `prices_data` entry. -/
theorem insertItems_preserve (items : List PriceResponseItem) :
    ∀ (acc : PricesMap) (k : Option Nat), acc k ≠ none → insertItems acc items k ≠ none := by
  induction items with
  | nil => intro acc k h; exact h
  | cons it rest ih =>
    intro acc k h
    show insertItems (updatePrices acc it.product_id it) rest k ≠ none
    exact ih _ k (updatePrices_preserve h)

/-- After inserting a batch's items, every item of the batch has an entry
under its `product_id` key. -/
theorem insertItems_covers (items : List PriceResponseItem) :
    ∀ (acc : PricesMap) (it : PriceResponseItem), it ∈ items →
      insertItems acc items it.product_id ≠ none := by
  induction items with
  | nil => intro acc it h; simp at h
  | cons a rest ih =>
    intro acc it h
    rcases List.mem_cons.mp h with heq | hmem
    · subst heq
      show insertItems (updatePrices acc it.product_id it) rest it.product_id ≠ none
      apply insertItems_preserve
      simp [updatePrices]
    · exact ih _ it hmem

/-- When no batch raises a transport exception, the batch loop completes and
its result keeps an entry for every already-present key and for every item of
every successful batch. -/
theorem runBatches_no_exc (env : Env) :
    ∀ (bs : List (List Nat)) (i : Nat) (acc : PricesMap),
      (∀ j, j < bs.length → ∀ e, env.priceBatch (i + j) ≠ BatchOutcome.exc e) →
      ∃ m, runBatches env i bs acc = some m ∧
        (∀ k, acc k ≠ none → m k ≠ none) ∧
        (∀ j items, j < bs.length → env.priceBatch (i + j) = BatchOutcome.ok items →
          ∀ it, it ∈ items → m it.product_id ≠ none) := by
  intro bs
  induction bs with
  | nil =>
    intro i acc _
    refine ⟨acc, rfl, fun k h => h, ?_⟩
    intro j items hj
    simp at hj
  | cons b rest ih =>
    intro i acc hnr
    cases hb : env.priceBatch i with
    | exc e =>
      exact absurd hb (by simpa using hnr 0 (by simp) e)
    | badStatus code =>
      obtain ⟨m, hrun, hpres, hcov⟩ := ih (i + 1) acc (by
        intro j hj e
        rw [show i + 1 + j = i + (j + 1) by omega]
        exact hnr (j + 1) (by simp; omega) e)
      refine ⟨m, ?_, hpres, ?_⟩
      · show runBatches env i (b :: rest) acc = some m
        rw [runBatches, hb]
        exact hrun
      · intro j items hj hok it hit
        cases j with
        | zero =>
          rw [Nat.add_zero, hb] at hok
          cases hok
        | succ j2 =>
          refine hcov j2 items (by simp at hj; omega) ?_ it hit
          rw [show i + 1 + j2 = i + (j2 + 1) by omega]
          exact hok
    | ok items0 =>
      obtain ⟨m, hrun, hpres, hcov⟩ := ih (i + 1) (insertItems acc items0) (by
        intro j hj e
        rw [show i + 1 + j = i + (j + 1) by omega]
        exact hnr (j + 1) (by simp; omega) e)
      refine ⟨m, ?_, ?_, ?_⟩
      · show runBatches env i (b :: rest) acc = some m
        rw [runBatches, hb]
        exact hrun
      · intro k h
        exact hpres k (insertItems_preserve items0 acc k h)
      · intro j items hj hok it hit
        cases j with
        | zero =>
          rw [Nat.add_zero, hb] at hok
          cases hok
          exact hpres _ (insertItems_covers items0 acc it hit)
        | succ j2 =>
          refine hcov j2 items (by simp at hj; omega) ?_ it hit
          rw [show i + 1 + j2 = i + (j2 + 1) by omega]
          exact hok

/-- The chunking function is insensitive to the fuel as long as the fuel
bounds the length. -/
theorem chunk50Aux_congr : ∀ (f1 f2 : Nat) (l : List Nat),
    l.length ≤ f1 → l.length ≤ f2 → chunk50Aux f1 l = chunk50Aux f2 l := by
  intro f1
  induction f1 with
  | zero =>
    intro f2 l h1 h2
    have : l = [] := List.eq_nil_of_length_eq_zero (Nat.le_zero.mp h1)
    subst this
    cases f2 <;> rfl
  | succ f ih =>
    intro f2 l h1 h2
    cases l with
    | nil => cases f2 <;> rfl
    | cons a t =>
      cases f2 with
      | zero => simp at h2
      | succ f2b =>
        show (a :: t).take 50 :: chunk50Aux f ((a :: t).drop 50)
            = (a :: t).take 50 :: chunk50Aux f2b ((a :: t).drop 50)
        have hlen : ((a :: t).drop 50).length ≤ f := by
          simp at h1 ⊢
          omega
        have hlen2 : ((a :: t).drop 50).length ≤ f2b := by
          simp at h2 ⊢
          omega
        rw [ih f2b _ hlen hlen2]

/-- One-step unfolding of the batch chunking on a nonempty id list. -/
theorem chunk50_cons (l : List Nat) (h : l ≠ []) :
    chunk50 l = l.take 50 :: chunk50 (l.drop 50) := by
  unfold chunk50
  cases l with
  | nil => exact absurd rfl h
  | cons a t =>
    show (a :: t).take 50 :: chunk50Aux t.length ((a :: t).drop 50)
        = (a :: t).take 50 :: chunk50Aux ((a :: t).drop 50).length ((a :: t).drop 50)
    rw [chunk50Aux_congr t.length ((a :: t).drop 50).length _ (by simp) (Nat.le_refl _)]

/-- The issued batches reassemble to the full id list: the chunking walks the
list in 50-id steps without loss or duplication. -/
theorem chunk50_flatten (l : List Nat) : (chunk50 l).flatten = l := by
  have key : ∀ (fuel : Nat) (l2 : List Nat), l2.length ≤ fuel →
      (chunk50Aux fuel l2).flatten = l2 := by
    intro fuel
    induction fuel with
    | zero =>
      intro l2 h
      have : l2 = [] := List.eq_nil_of_length_eq_zero (Nat.le_zero.mp h)
      subst this
      rfl
    | succ f ih =>
      intro l2 h
      cases l2 with
      | nil => rfl
      | cons a t =>
        show ((a :: t).take 50 :: chunk50Aux f ((a :: t).drop 50)).flatten = a :: t
        rw [List.flatten_cons, ih _ (by simp at h ⊢; omega)]
        exact List.take_append_drop 50 (a :: t)
  exact key l.length l (Nat.le_refl _)

/-- Every issued batch carries at most 50 ids. -/
theorem chunk50_le_50 : ∀ (fuel : Nat) (l : List Nat) (b : List Nat),
    b ∈ chunk50Aux fuel l → b.length ≤ 50 := by
  intro fuel
  induction fuel with
  | zero =>
    intro l b h
    cases l <;> simp [chunk50Aux] at h
  | succ f ih =>
    intro l b h
    cases l with
    | nil => simp [chunk50Aux] at h
    | cons a t =>
      rcases List.mem_cons.mp h with heq | hmem
      · subst heq
        simp
      · exact ih _ b hmem

/-- A 120-id list is chunked into exactly three batches of 50, 50 and 20. -/
theorem chunk50_sizes_120 (l : List Nat) (h : l.length = 120) :
    (chunk50 l).map List.length = [50, 50, 20] := by
  have h1 : l ≠ [] := by
    intro he
    rw [he] at h
    simp at h
  rw [chunk50_cons l h1]
  have hd1 : (l.drop 50).length = 70 := by simp [h]
  have h2 : l.drop 50 ≠ [] := by
    intro he
    rw [he] at hd1
    simp at hd1
  rw [chunk50_cons _ h2]
  have hd2 : ((l.drop 50).drop 50).length = 20 := by simp [h]
  have h3 : (l.drop 50).drop 50 ≠ [] := by
    intro he
    rw [he] at hd2
    simp at hd2
  rw [chunk50_cons _ h3]
  have hd3 : ((l.drop 50).drop 50).drop 50 = [] :=
    List.eq_nil_of_length_eq_zero (by simp [h])
  rw [hd3]
  show ([l.take 50, (l.drop 50).take 50, ((l.drop 50).drop 50).take 50].map List.length
      : List Nat) = [50, 50, 20]
  simp [List.length_take, h, hd1, hd2]

/-- Adding a constant commutes with first reducing modulo `N`. -/
theorem emod_shift (x c N : Int) : (x % N + c) % N = (x + c) % N := by
  conv_lhs => rw [Int.add_emod]
  conv_rhs => rw [Int.add_emod]
  rw [Int.emod_emod_of_dvd x (dvd_refl N)]

/-- Closed form for iterating the `next` navigation arm from a valid
position. -/
theorem next_index_iterate (cache : List (Nat × Product)) (p : Int)
    (hN : 1 ≤ cache.length) (hp1 : 1 ≤ p) (hp2 : p ≤ (cache.length : Int)) :
    ∀ k : Nat, (next_index cache)^[k] p = (p - 1 + k) % (cache.length : Int) + 1 := by
  have hN0 : (0 : Int) < (cache.length : Int) := by exact_mod_cast hN
  intro k
  induction k with
  | zero =>
    simp only [Function.iterate_zero, id_eq, Nat.cast_zero, add_zero]
    rw [Int.emod_eq_of_lt (by omega) (by omega)]
    omega
  | succ k2 ih =>
    rw [Function.iterate_succ_apply', ih]
    have ha0 : 0 ≤ (p - 1 + (k2 : Int)) % (cache.length : Int) :=
      Int.emod_nonneg _ (by omega)
    have haN : (p - 1 + (k2 : Int)) % (cache.length : Int) < (cache.length : Int) :=
      Int.emod_lt_of_pos _ hN0
    simp only [next_index]
    push_cast
    rw [show (p - 1 + ((k2 : Int) + 1)) = ((p - 1 + (k2 : Int)) + 1) by ring]
    rw [← emod_shift (p - 1 + (k2 : Int)) 1 (cache.length : Int)]
    split_ifs with hcond
    · have he : (p - 1 + (k2 : Int)) % (cache.length : Int) = (cache.length : Int) - 1 := by
        omega
      rw [he, show ((cache.length : Int) - 1 + 1) = (cache.length : Int) by ring,
        Int.emod_self]
      omega
    · have h1 : (0 : Int) ≤ (p - 1 + (k2 : Int)) % (cache.length : Int) + 1 := by omega
      have h2 : (p - 1 + (k2 : Int)) % (cache.length : Int) + 1 < (cache.length : Int) := by
        omega
      rw [Int.emod_eq_of_lt h1 h2]

/-- Closed form for iterating the `prev` navigation arm from a valid
position. -/
theorem prev_index_iterate (cache : List (Nat × Product)) (p : Int)
    (hN : 1 ≤ cache.length) (hp1 : 1 ≤ p) (hp2 : p ≤ (cache.length : Int)) :
    ∀ k : Nat, (prev_index cache)^[k] p
      = (p - 1 + (k : Int) * ((cache.length : Int) - 1)) % (cache.length : Int) + 1 := by
  have hN0 : (0 : Int) < (cache.length : Int) := by exact_mod_cast hN
  intro k
  induction k with
  | zero =>
    simp only [Function.iterate_zero, id_eq, Nat.cast_zero, zero_mul, add_zero]
    rw [Int.emod_eq_of_lt (by omega) (by omega)]
    omega
  | succ k2 ih =>
    rw [Function.iterate_succ_apply', ih]
    have ha0 : 0 ≤ (p - 1 + (k2 : Int) * ((cache.length : Int) - 1)) % (cache.length : Int) :=
      Int.emod_nonneg _ (by omega)
    have haN : (p - 1 + (k2 : Int) * ((cache.length : Int) - 1)) % (cache.length : Int)
        < (cache.length : Int) := Int.emod_lt_of_pos _ hN0
    simp only [prev_index]
    push_cast
    rw [show (p - 1 + ((k2 : Int) + 1) * ((cache.length : Int) - 1))
        = ((p - 1 + (k2 : Int) * ((cache.length : Int) - 1)) + ((cache.length : Int) - 1))
        by ring]
    rw [← emod_shift (p - 1 + (k2 : Int) * ((cache.length : Int) - 1))
      ((cache.length : Int) - 1) (cache.length : Int)]
    split_ifs with hcond
    · have he : (p - 1 + (k2 : Int) * ((cache.length : Int) - 1)) % (cache.length : Int)
          = 0 := by omega
      have h1 : (0 : Int) ≤ (cache.length : Int) - 1 := by omega
      have h2 : (cache.length : Int) - 1 < (cache.length : Int) := by omega
      rw [he, zero_add, Int.emod_eq_of_lt h1 h2]
      ring
    · rw [show ((p - 1 + (k2 : Int) * ((cache.length : Int) - 1)) % (cache.length : Int)
          + ((cache.length : Int) - 1))
          = ((p - 1 + (k2 : Int) * ((cache.length : Int) - 1)) % (cache.length : Int) - 1)
            + (cache.length : Int) * 1 by ring]
      rw [Int.add_mul_emod_self_left]
      have h1 : (0 : Int)
          ≤ (p - 1 + (k2 : Int) * ((cache.length : Int) - 1)) % (cache.length : Int) - 1 := by
        omega
      have h2 : (p - 1 + (k2 : Int) * ((cache.length : Int) - 1)) % (cache.length : Int) - 1
          < (cache.length : Int) := by omega
      rw [Int.emod_eq_of_lt h1 h2]
      omega

/-- The resolved description is either short or a verbatim copy of the
resolved name. -/
theorem resolve_description_cases (descs : DescsMap) (item : ListingItem) (pid : Nat) :
    (resolve_description descs item pid).length ≤ 200 ∨
    resolve_description descs item pid = resolve_name descs item pid := by
  unfold resolve_description
  by_cases h1 : raw_description descs pid = []
  · rw [if_pos h1]
    exact Or.inr rfl
  · rw [if_neg h1]
    left
    show (if 200 < (clean_description (raw_description descs pid)).length
        then (clean_description (raw_description descs pid)).take 197
          ++ ('.' :: '.' :: '.' :: [])
        else clean_description (raw_description descs pid)).length ≤ 200
    by_cases h2 : 200 < (clean_description (raw_description descs pid)).length
    · rw [if_pos h2, List.length_append, List.length_take,
        show (('.' :: '.' :: '.' :: []) : List Char).length = 3 from rfl]
      omega
    · rw [if_neg h2]
      omega

/-! Theorems settling the claims. -/

/-- Claim C1: every `Product` in any snapshot produced by a refresh has
`price > 0`; a listing item whose resolved price is 0 is excluded entirely
from the output, and the extracted price is never negative, so no
non-positive price can reach a snapshot. -/
theorem snapshot_price_pos (env : Env) (k : Nat) (prod : Product)
    (h : (k, prod) ∈ load_real_products env) : 0 < prod.price := by
  obtain ⟨items, hl, item, hmem, hpi⟩ := mem_load_real_products h
  obtain ⟨pid, hpid, h0, hne, hprod⟩ := process_item_some_iff.mp hpi
  have hnn := extract_price_nonneg (get_products_prices_v5 env (listing_ids items) (some pid))
  rw [hprod]
  show 0 < extract_price_from_v5 (get_products_prices_v5 env (listing_ids items) (some pid))
  omega

/-- Witness for C1: the concrete snapshot under `envOK` contains `prodA`, and
the claim instance yields its price positivity. -/
theorem snapshot_price_pos_witness : 0 < prodA.price :=
  snapshot_price_pos envOK 1 prodA (by decide)

/-- Claim C2: price resolution takes the primary price first, falls back to
the old price when the primary is absent or non-positive, resolves to 0 when
both are absent or non-positive (this is `resolve_price_spec`, transcribed
from the spec), and the result is never negative. -/
theorem price_resolution_matches_spec :
    (∀ (pid : Option Nat) (mp op : Option Int),
      extract_price_from_v5 (some ⟨pid, some ⟨mp, op⟩⟩) = resolve_price_spec mp op) ∧
    (∀ pid : Option Nat, extract_price_from_v5 (some ⟨pid, none⟩) = 0) ∧
    extract_price_from_v5 none = 0 ∧
    (∀ x : Option PriceResponseItem, 0 ≤ extract_price_from_v5 x) := by
  refine ⟨?_, fun pid => rfl, rfl, extract_price_nonneg⟩
  intro pid mp op
  rcases mp with _ | m <;> rcases op with _ | o <;>
    simp [extract_price_from_v5, extract_old, resolve_price_spec, resolve_fallback_spec] <;>
    split_ifs <;> omega

/-- Witness for C2: a record with a zero primary price and old price 55
resolves through the fallback to 55. -/
theorem price_resolution_matches_spec_witness :
    extract_price_from_v5 (some ⟨some 9, some ⟨some 0, some 55⟩⟩)
      = resolve_price_spec (some 0) (some 55)
    ∧ resolve_price_spec (some 0) (some 55) = 55 :=
  ⟨price_resolution_matches_spec.1 (some 9) (some 0) (some 55), by decide⟩

/-- Claim C5: whenever the listing call fails (in any way) or returns no
items, the refresh yields an empty snapshot — the store shrinks to size 0 and
the prior snapshot is discarded, whatever it contained; totality of `refresh`
models that the Python refresh never raises. -/
theorem listing_failure_clears (env : Env) (prior : List (Nat × Product))
    (h : (∃ f, env.listing = ListingOutcome.fail f) ∨ env.listing = ListingOutcome.ok []) :
    refresh prior env = ([], prior.length, 0) := by
  have hg : get_products_with_prices env = none := by
    unfold get_products_with_prices
    by_cases hc : env.creds = false
    · rw [if_pos hc]
    · rw [if_neg hc]
      rcases h with ⟨f, hf⟩ | hemp
      · rw [hf]
      · rw [hemp]
        rfl
  have hload := load_eq_nil_of_get_none hg
  unfold refresh
  rw [hload]
  rfl

/-- Witness for C5: a timed-out listing call clears a one-product store. -/
theorem listing_failure_clears_witness : refresh [(1, prodA)] envTimeout = ([], 1, 0) :=
  listing_failure_clears envTimeout [(1, prodA)] (Or.inl ⟨ListingFailure.timeout, rfl⟩)

/-- Claim C6: on a snapshot of size N ≥ 1 and position 1 ≤ p ≤ N, `next` is
p+1 except next(N) = 1, `prev` is p-1 except prev(1) = N, and N applications
of either return to p. -/
theorem navigation_wraparound (cache : List (Nat × Product)) (p : Int)
    (hN : 1 ≤ cache.length) (hp1 : 1 ≤ p) (hp2 : p ≤ (cache.length : Int)) :
    (p < (cache.length : Int) → next_index cache p = p + 1) ∧
    next_index cache (cache.length : Int) = 1 ∧
    (1 < p → prev_index cache p = p - 1) ∧
    prev_index cache 1 = (cache.length : Int) ∧
    (next_index cache)^[cache.length] p = p ∧
    (prev_index cache)^[cache.length] p = p := by
  have hN0 : (0 : Int) < (cache.length : Int) := by exact_mod_cast hN
  refine ⟨?_, ?_, ?_, ?_, ?_, ?_⟩
  · intro hlt
    simp only [next_index]
    split_ifs <;> omega
  · simp only [next_index]
    split_ifs <;> omega
  · intro hlt
    simp only [prev_index]
    split_ifs <;> omega
  · simp only [prev_index]
    split_ifs <;> omega
  · rw [next_index_iterate cache p hN hp1 hp2 cache.length]
    rw [show (p - 1 + (cache.length : Int))
        = (p - 1) + (cache.length : Int) * 1 by ring, Int.add_mul_emod_self_left]
    have h1 : (0 : Int) ≤ p - 1 := by omega
    have h2 : p - 1 < (cache.length : Int) := by omega
    rw [Int.emod_eq_of_lt h1 h2]
    omega
  · rw [prev_index_iterate cache p hN hp1 hp2 cache.length]
    rw [Int.add_mul_emod_self_left]
    have h1 : (0 : Int) ≤ p - 1 := by omega
    have h2 : p - 1 < (cache.length : Int) := by omega
    rw [Int.emod_eq_of_lt h1 h2]
    omega

/-- Witness for C6 on the concrete two-product cache: both cycles of length 2
return to position 1. -/
theorem navigation_wraparound_witness :
    (next_index cacheAB)^[2] 1 = 1 ∧ (prev_index cacheAB)^[2] 1 = 1 := by
  have h := navigation_wraparound cacheAB 1 (by decide) (by decide) (by decide)
  exact ⟨h.2.2.2.2.1, h.2.2.2.2.2⟩

/-- Claim C7: the snapshot built by a refresh is densely, contiguously,
1-based indexed — its keys are exactly 1..size in order — and its values are
exactly the reconciled product sequence, which is the listing order filtered
by the per-item exclusion. -/
theorem snapshot_positions_dense (env : Env) (items : List ListingItem) (ps : List Product)
    (hl : env.listing = ListingOutcome.ok items)
    (hg : get_products_with_prices env = some ps) :
    (load_real_products env).map Prod.fst = List.range' 1 (load_real_products env).length ∧
    (load_real_products env).map Prod.snd = ps ∧
    ps = items.filterMap
      (process_item (get_products_prices_v5 env (listing_ids items))
        (get_products_descriptions_v1 env (listing_ids items))) := by
  have hload := load_eq_of_get hg
  refine ⟨?_, ?_, ?_⟩
  · rw [hload]
    split_ifs with hps
    · simp
    · rw [number_from_length, number_from_map_fst]
  · rw [hload]
    split_ifs with hps
    · rw [hps]
      rfl
    · exact number_from_map_snd 1 ps
  · unfold get_products_with_prices at hg
    split at hg
    · cases hg
    · split at hg
      · cases hg
      · rename_i items2 hl2
        rw [hl] at hl2
        cases hl2
        split at hg
        · cases hg
        · split at hg
          · cases hg
          · cases hg
            rw [build_products_eq]

/-- Witness for C7: under `envOK` the snapshot keys are exactly the range
from 1. -/
theorem snapshot_positions_dense_witness :
    (load_real_products envOK).map Prod.fst
      = List.range' 1 (load_real_products envOK).length :=
  (snapshot_positions_dense envOK [itemA, itemB] [prodA, prodB] rfl (by decide)).1

/-- Claim C10: a listing item without a `product_id` key is excluded from the
id list used for the price and description lookups and from the catalog, and
a listing in which no item carries an id degrades to the empty catalog
exactly as a failed listing does. -/
theorem missing_id_excluded (env : Env) (items : List ListingItem)
    (hl : env.listing = ListingOutcome.ok items) :
    ((∀ item, item ∈ items → item.product_id = none) → load_real_products env = []) ∧
    (∀ pid, pid ∈ listing_ids items → ∃ item, item ∈ items ∧ item.product_id = some pid) ∧
    (∀ k prod, (k, prod) ∈ load_real_products env →
      ∃ item, item ∈ items ∧ item.product_id = some prod.product_id) := by
  refine ⟨?_, ?_, ?_⟩
  · intro hall
    have hids : listing_ids items = [] := by
      unfold listing_ids
      exact List.filterMap_eq_nil_iff.mpr hall
    apply load_eq_nil_of_get_none
    unfold get_products_with_prices
    by_cases hc : env.creds = false
    · rw [if_pos hc]
    · rw [if_neg hc, hl]
      by_cases hni : items = []
      · simp [hni]
      · simp [hni, hids]
  · intro pid hpid
    obtain ⟨item, hm, he⟩ := List.mem_filterMap.mp hpid
    exact ⟨item, hm, he⟩
  · intro k prod h
    obtain ⟨items2, hl2, item, hmem, hpi⟩ := mem_load_real_products h
    rw [hl] at hl2
    cases hl2
    obtain ⟨pid, hpid, h0, hne, hprod⟩ := process_item_some_iff.mp hpi
    refine ⟨item, hmem, ?_⟩
    rw [hprod]
    exact hpid

/-- Witness for C10: an environment whose single listed item lacks an id
yields the empty catalog. -/
theorem missing_id_excluded_witness : load_real_products envNoId = [] :=
  (missing_id_excluded envNoId [itemNoId] rfl).1 (by decide)

set_option maxRecDepth 8000 in
/-- Counterexample to C4 as stated: under `envC4ce` the snapshot holds a
product whose description is 201 characters long — the empty raw description
fell back to the 201-character display name, which the truncation step never
touches. -/
theorem description_length_ce :
    load_real_products envC4ce = [(1, prodC4ce)] ∧ 200 < prodC4ce.description.length := by
  constructor
  · decide
  · decide

/-- Claim C4 (amended): every snapshot product's description is at most 200
characters or is a verbatim copy of its display name (the fallback used when
no description text exists, which is not length-capped); a nonempty sanitized
description longer than 200 characters is truncated to 197 characters plus an
ellipsis marker. -/
theorem description_bound :
    (∀ (env : Env) (k : Nat) (prod : Product), (k, prod) ∈ load_real_products env →
      prod.description.length ≤ 200 ∨ prod.description = prod.name) ∧
    (∀ (descs : DescsMap) (item : ListingItem) (pid : Nat) (r : DescRecord),
      descs pid = some r → r.description ≠ [] →
      200 < (clean_description r.description).length →
      resolve_description descs item pid
        = (clean_description r.description).take 197 ++ ('.' :: '.' :: '.' :: [])) := by
  constructor
  · intro env k prod h
    obtain ⟨items, hl, item, hmem, hpi⟩ := mem_load_real_products h
    obtain ⟨pid, hpid, h0, hne, hprod⟩ := process_item_some_iff.mp hpi
    rw [hprod]
    exact resolve_description_cases (get_products_descriptions_v1 env (listing_ids items))
      item pid
  · intro descs item pid r hr hne hlong
    unfold resolve_description raw_description
    rw [hr]
    show (if r.description = [] then resolve_name descs item pid
        else if 200 < (clean_description r.description).length
          then (clean_description r.description).take 197 ++ ('.' :: '.' :: '.' :: [])
          else clean_description r.description)
      = (clean_description r.description).take 197 ++ ('.' :: '.' :: '.' :: [])
    rw [if_neg hne, if_pos hlong]

/-- Witness for C4 (amended) at the concrete snapshot of `envOK`. -/
theorem description_bound_witness :
    prodA.description.length ≤ 200 ∨ prodA.description = prodA.name :=
  description_bound.1 envOK 1 prodA (by decide)

/-- Counterexample to C8 as stated: under `envC8ce` the listing is nonempty
and its item resolves to the positive price 100, yet the refresh yields an
empty catalog, because the item's id 0 is falsy and the reconciliation loop
skips it. -/
theorem refresh_positive_item_ce :
    envC8ce.listing = ListingOutcome.ok [itemZero] ∧
    itemZero.product_id = some 0 ∧
    0 < extract_price_from_v5
      (get_products_prices_v5 envC8ce (listing_ids [itemZero]) (some 0)) ∧
    load_real_products envC8ce = [] := by
  refine ⟨rfl, rfl, by decide, by decide⟩

/-- Claim C8 (amended): for every non-empty successfully fetched listing
containing at least one item with a nonzero identifier whose resolved price
is positive, the refresh yields a catalog of size at least 1 and at most the
number of listed items. -/
theorem refresh_count_bounds (env : Env) (items : List ListingItem)
    (hc : env.creds = true) (hl : env.listing = ListingOutcome.ok items)
    (hpos : ∃ item, item ∈ items ∧ ∃ pid, item.product_id = some pid ∧ pid ≠ 0 ∧
      0 < extract_price_from_v5 (get_products_prices_v5 env (listing_ids items) (some pid))) :
    1 ≤ (load_real_products env).length ∧
    (load_real_products env).length ≤ items.length := by
  obtain ⟨item, hmem, pid, hpid, h0, hpp⟩ := hpos
  have hne : items ≠ [] := by
    intro he
    rw [he] at hmem
    simp at hmem
  have hids : listing_ids items ≠ [] := by
    intro he
    have hpin : pid ∈ listing_ids items := List.mem_filterMap.mpr ⟨item, hmem, hpid⟩
    rw [he] at hpin
    simp at hpin
  have hg := get_eq_build hc hl hne hids
  have hpi : process_item (get_products_prices_v5 env (listing_ids items))
      (get_products_descriptions_v1 env (listing_ids items)) item
      = some ⟨pid, item.offer_id,
          resolve_name (get_products_descriptions_v1 env (listing_ids items)) item pid,
          extract_price_from_v5 (get_products_prices_v5 env (listing_ids items) (some pid)),
          resolve_description (get_products_descriptions_v1 env (listing_ids items)) item pid,
          10⟩ :=
    process_item_some_iff.mpr ⟨pid, hpid, h0, by omega, rfl⟩
  have hmemb := mem_build_products.mpr ⟨item, hmem, hpi⟩
  have hbne : build_products (get_products_prices_v5 env (listing_ids items))
      (get_products_descriptions_v1 env (listing_ids items)) items ≠ [] := by
    intro he
    rw [he] at hmemb
    simp at hmemb
  have hload := load_eq_of_get hg
  rw [hload, if_neg hbne, number_from_length]
  constructor
  · have := List.length_pos.mpr hbne
    omega
  · rw [build_products_eq]
    exact List.length_filterMap_le _ _

/-- Witness for C8 (amended) under `envOK`: the two-item listing with
positively priced item 5 yields a catalog of size between 1 and 2. -/
theorem refresh_count_bounds_witness :
    1 ≤ (load_real_products envOK).length ∧
    (load_real_products envOK).length ≤ ([itemA, itemB] : List ListingItem).length :=
  refresh_count_bounds envOK [itemA, itemB] rfl rfl
    ⟨itemA, by decide, 5, rfl, by decide, by decide⟩

/-- Counterexample to C3 as stated: under `envC3ce` price batch 0 succeeds
and returns the record for id 5, batch 1 of the two batches raises a timeout,
and the returned mapping is empty — the records already fetched by the
succeeded batch are not preserved. -/
theorem prices_abort_loss_ce :
    envC3ce.priceBatch 0 = BatchOutcome.ok [priceRecA] ∧
    envC3ce.priceBatch 1 = BatchOutcome.exc TransportError.timeout ∧
    (chunk50 idsC3).length = 2 ∧
    (5 : Nat) ∈ idsC3 ∧
    get_products_prices_v5 envC3ce idsC3 (some 5) = none := by
  refine ⟨rfl, rfl, by decide, by decide, by decide⟩

/-- Claim C3 (amended): a batch failing with a non-success status contributes
no price records but does not abort the call — when no batch raises a
transport exception, the returned mapping has an entry for every item of
every succeeded batch; a raised timeout or connection error, however, makes
the whole call return an empty mapping (the call itself still returns rather
than raising, which totality models). -/
theorem prices_batch_failures (env : Env) (ids : List Nat) (hne : ids ≠ [])
    (hnr : ∀ j, j < (chunk50 ids).length → ∀ e, env.priceBatch j ≠ BatchOutcome.exc e) :
    ∀ j items, j < (chunk50 ids).length → env.priceBatch j = BatchOutcome.ok items →
      ∀ it, it ∈ items → get_products_prices_v5 env ids it.product_id ≠ none := by
  obtain ⟨m, hrun, hpres, hcov⟩ :=
    runBatches_no_exc env (chunk50 ids) 0 (fun _ => none) (by simpa using hnr)
  intro j items hj hok it hit
  unfold get_products_prices_v5
  rw [if_neg hne, hrun]
  exact hcov j items hj (by simpa using hok) it hit

/-- Witness for C3 (amended): the succeeded single batch of `envOK` leaves an
entry for id 5. -/
theorem prices_batch_failures_witness :
    get_products_prices_v5 envOK [5] (some 5) ≠ none :=
  prices_batch_failures envOK [5] (by decide)
    (by
      intro j hj e h
      simp [envOK] at h)
    0 [priceRecA, priceRecB] (by decide) rfl priceRecA (by decide)

/-- Counterexample to C9 as stated: over the 120 ids of `ids120`, batch 0
succeeds and returns the record for id 5, batch 1 raises a connection error,
and the merged mapping has no entry for id 5 even though a succeeding batch
returned a record for it. -/
theorem fetch_prices_batching_ce :
    ids120.length = 120 ∧
    envC9ce.priceBatch 0 = BatchOutcome.ok [priceRecA] ∧
    envC9ce.priceBatch 1 = BatchOutcome.exc TransportError.connError ∧
    (5 : Nat) ∈ ids120 ∧
    get_products_prices_v5 envC9ce ids120 (some 5) = none := by
  refine ⟨by decide, rfl, rfl, by decide, by decide⟩

/-- Claim C9 (amended): `fetchPrices` partitions the ids into consecutive
batches of at most 50 that reassemble to the input (3 batches of sizes
50/50/20 for 120 ids), and — provided no batch raises a transport exception —
the merged mapping has an entry for every identifier a succeeding batch
returned a record for; a raised exception empties the whole result instead. -/
theorem fetch_prices_batching (ids : List Nat) :
    (chunk50 ids).flatten = ids ∧
    (∀ b, b ∈ chunk50 ids → b.length ≤ 50) ∧
    (ids.length = 120 → (chunk50 ids).map List.length = [50, 50, 20]) ∧
    (∀ env : Env,
      (∀ j, j < (chunk50 ids).length → ∀ e, env.priceBatch j ≠ BatchOutcome.exc e) →
      ids ≠ [] →
      ∀ j items, j < (chunk50 ids).length → env.priceBatch j = BatchOutcome.ok items →
        ∀ it, it ∈ items → get_products_prices_v5 env ids it.product_id ≠ none) := by
  refine ⟨chunk50_flatten ids, ?_, chunk50_sizes_120 ids, ?_⟩
  · intro b hb
    exact chunk50_le_50 ids.length ids b hb
  · intro env hnr hne2 j items hj hok it hit
    obtain ⟨m, hrun, hpres, hcov⟩ :=
      runBatches_no_exc env (chunk50 ids) 0 (fun _ => none) (by simpa using hnr)
    unfold get_products_prices_v5
    rw [if_neg hne2, hrun]
    exact hcov j items hj (by simpa using hok) it hit

/-- Witness for C9 (amended): the 120 ids produce batch sizes 50/50/20, and
under the all-healthy `envOK` the merged mapping keeps the entry for id 5. -/
theorem fetch_prices_batching_witness :
    (chunk50 ids120).map List.length = [50, 50, 20] ∧
    get_products_prices_v5 envOK ids120 (some 5) ≠ none := by
  constructor
  · exact (fetch_prices_batching ids120).2.2.1 (by decide)
  · exact (fetch_prices_batching ids120).2.2.2 envOK
      (by
        intro j hj e h
        simp [envOK] at h)
      (by decide)
      0 [priceRecA, priceRecB] (by decide) rfl priceRecA (by decide)
